import Mathlib

/-
Shallow embedding of the fossbarrow/global-ssn-validator repository
(src/src/index.ts, primary variant, together with the second historical
variant's checksum routine), a Swedish social security number validator
and masker.  Strings are modelled as `List Char`; the JavaScript clock
(`new Date()`) is an explicit `Date` parameter of every function that
reads it.
-/

/-- Calendar date; also used for the current date ("today").  The source
compares `new Date().getTime()` against the midnight timestamp of a parsed
`YYYY-MM-DD` date, which at day granularity is the lexicographic comparison
`dateLt` below. -/
structure Date where
  year : Nat
  month : Nat
  day : Nat
deriving DecidableEq, Repr

/-- Numeric value of a decimal digit character. -/
def digitVal (c : Char) : Nat := c.toNat - '0'.toNat

/-- The decimal digit character for `n < 10`. -/
def digitChar (n : Nat) : Char := Char.ofNat ('0'.toNat + n)

/-- Fuel-indexed helper for `natDigits`; fuel `n + 1` always suffices. -/
def natDigitsAux : Nat → Nat → List Char → List Char
  | 0, _, acc => acc
  | fuel + 1, n, acc =>
    if n < 10 then digitChar n :: acc
    else natDigitsAux fuel (n / 10) (digitChar (n % 10) :: acc)

/-- Decimal digit characters of `n`, most significant first.  Models
JavaScript `Number.prototype.toString` on nonnegative integers. -/
def natDigits (n : Nat) : List Char := natDigitsAux (n + 1) n []

/-- JavaScript string coercion of an integer (`String(n)`). -/
def intToChars (n : Int) : List Char :=
  if n < 0 then '-' :: natDigits n.natAbs else natDigits n.toNat

/-- JavaScript `String.prototype.slice` restricted to nonnegative indices:
both indices are clamped to the length and the result is empty when the
first index is not below the second. -/
def jsSlice (s : List Char) (a b : Nat) : List Char := (s.take b).drop a

/-- `divideByIndex` from the source: cuts `string` at the given indices.
The source builds `indices = [0, ...index, string.length]` and pushes
`string.slice(indices[i], indices[i+1])` for consecutive pairs.  The
`debug` logging parameter only prints and is dropped. -/
def divideByIndex (string : List Char) (index : List Nat) : List (List Char) :=
  let indices := 0 :: index ++ [string.length]
  (indices.zip indices.tail).map fun p => jsSlice string p.1 p.2

/-- Removal of the first occurrence of a character, as JavaScript
`String.prototype.replace` with a one-character string pattern and empty
replacement. -/
def removeFirst (c : Char) : List Char → List Char
  | [] => []
  | x :: xs => if x = c then xs else x :: removeFirst c xs

/-- `sanitize` from the source: `age_threshold` is 125 unless the string
contains a dash (then 100); the first `-` and the first `+` are removed;
if 10 characters remain, the first two characters of
`(currentYear - age_threshold).toString()` are prepended. -/
def sanitize (today : Date) (ssn : List Char) : List Char :=
  let age_threshold := if ssn.contains '-' then 100 else 125
  let s := removeFirst '+' (removeFirst '-' ssn)
  if s.length = 10 then (natDigits (today.year - age_threshold)).take 2 ++ s else s

/-- One of the separator characters, regex group `(-|\+)`. -/
def sepChar (c : Char) : Bool := c == '-' || c == '+'

/-- Regex group `(0[1-9]|1\d|2[0-1])` on the two characters following the
separator (the first two serial digits, constrained to 01..21). -/
def serialHeadOK (a b : Char) : Bool :=
  (a == '0' && (decide ('1' ≤ b) && decide (b ≤ '9'))) ||
  (a == '1' && b.isDigit) ||
  (a == '2' && (b == '0' || b == '1'))

/-- The part of the format regex after the 6 or 8 leading digits: a
separator followed by exactly four characters, the first two in 01..21,
the last two digits. -/
def sepTail (t : List Char) : Bool :=
  match t with
  | [sep, a, b, c, d] => sepChar sep && serialHeadOK a b && c.isDigit && d.isDigit
  | _ => false

/-- The anchored format regex of the source,
`^(\d{6}|\d{8})(-|\+)(0[1-9]|1\d|2[0-1])\d{2}$`: either 6 leading digits
and total length 11, or 8 leading digits and total length 13. -/
def regexTest (s : List Char) : Bool :=
  (decide (s.length = 11) && (s.take 6).all Char.isDigit && sepTail (s.drop 6)) ||
  (decide (s.length = 13) && (s.take 8).all Char.isDigit && sepTail (s.drop 8))

/-- Proleptic Gregorian leap-year rule, as used by JavaScript dates. -/
def isLeapYear (y : Nat) : Bool :=
  decide (y % 4 = 0) && (decide (y % 100 ≠ 0) || decide (y % 400 = 0))

/-- Days in a month of the proleptic Gregorian calendar. -/
def daysInMonth (y m : Nat) : Nat :=
  if m = 2 then (if isLeapYear y then 29 else 28)
  else if m = 4 ∨ m = 6 ∨ m = 9 ∨ m = 11 then 30
  else 31

/-- JavaScript `new Date(string)` on the strings this program builds:
an ECMA-262 ISO `YYYY-MM-DD` string parses to a date when its month and
day fields are in range, anything else is an invalid date (`none`,
i.e. `getTime()` is NaN). -/
def jsDateParse (s : List Char) : Option Date :=
  match s with
  | [y1, y2, y3, y4, s1, m1, m2, s2, d1, d2] =>
    if y1.isDigit && y2.isDigit && y3.isDigit && y4.isDigit && (s1 == '-') &&
       m1.isDigit && m2.isDigit && (s2 == '-') && d1.isDigit && d2.isDigit then
      let y := 1000 * digitVal y1 + 100 * digitVal y2 + 10 * digitVal y3 + digitVal y4
      let m := 10 * digitVal m1 + digitVal m2
      let d := 10 * digitVal d1 + digitVal d2
      if 1 ≤ m ∧ m ≤ 12 ∧ 1 ≤ d ∧ d ≤ daysInMonth y m then some ⟨y, m, d⟩ else none
    else none
  | _ => none

/-- `new Date().getTime() < date.getTime()` where `date` is the midnight
timestamp of a parsed calendar date: at day granularity this is the
lexicographic order on (year, month, day). -/
def dateLt (a b : Date) : Bool :=
  decide (a.year < b.year) ||
  (decide (a.year = b.year) &&
    (decide (a.month < b.month) ||
      (decide (a.month = b.month) && decide (a.day < b.day))))

/-- JavaScript `parseInt` on the strings this program feeds it: the value
of the maximal run of leading digits, `none` (NaN) when there is none. -/
def parseIntJS (s : List Char) : Option Nat :=
  match s.takeWhile Char.isDigit with
  | [] => none
  | ds => some (ds.foldl (fun a c => 10 * a + digitVal c) 0)

/-- Digit sum of a number via JavaScript
`n.toString().split("").map(Number).reduce((a, b) => a + b, 0)`. -/
def jsDigitSum (n : Nat) : Nat := ((natDigits n).map digitVal).sum

/-- One term of the primary validator's checksum loop: the digit is
multiplied by 2 at even indices and 1 at odd indices, and the decimal
digits of the product are summed.  A non-digit character would make
`parseInt` return NaN (`none`), which then poisons the whole sum. -/
def charTermJS (i : Nat) (c : Char) : Option Nat :=
  if c.isDigit then some (jsDigitSum (digitVal c * (if i % 2 = 0 then 2 else 1)))
  else none

/-- NaN-propagating addition of JavaScript numbers. -/
def optAdd (a b : Option Nat) : Option Nat :=
  match a, b with
  | some x, some y => some (x + y)
  | _, _ => none

/-- The primary validator's `control` accumulator over the 9 registry
digits that follow the two century digits. -/
def luhnControl (l : List Char) : Option Nat :=
  l.enum.foldl (fun acc p => optAdd acc (charTermJS p.1 p.2)) (some 0)

/-- The primary validator's final comparison
`10 - (control % 10) == checksum` (note: no final `% 10`); any NaN operand
makes the comparison false. -/
def luhnCheckEq (control checksum : Option Nat) : Bool :=
  match control, checksum with
  | some a, some b => decide (10 - a % 10 = b)
  | _, _ => false

/-- `ssnIsValid` from the source (primary variant), with the operations
that could observably fail at runtime made explicit in `Except`; the
`debug`/`info` parameters only print and are dropped.  Steps: format
regex, `sanitize`, split off the trailing checksum digit, rebuild and
check the birth date, then compare the checksum. -/
def ssnIsValidE (today : Date) (ssn : List Char) : Except Unit Bool :=
  if regexTest ssn = false then Except.ok false
  else
    let s := sanitize today ssn
    match divideByIndex s [s.length - 1] with
    | [registry, checksumStr] =>
      let checksum := parseIntJS checksumStr
      match jsDateParse (List.intercalate ['-'] (divideByIndex (jsSlice registry 0 8) [4, 6])) with
      | none => Except.ok false
      | some date =>
        if dateLt today date then Except.ok false
        else Except.ok (luhnCheckEq (luhnControl (registry.drop 2)) checksum)
    | _ => Except.error ()

/-- Boolean result of the primary `ssnIsValid` (the `Except` wrapper never
fires, see the totality theorem). -/
def ssnIsValid (today : Date) (ssn : List Char) : Bool :=
  match ssnIsValidE today ssn with
  | Except.ok b => b
  | Except.error _ => false

/-- A dynamically-typed JavaScript return value: the primary `ssnMask` is
declared `any` and returns either a string or the boolean `false`. -/
inductive JSValue where
  | str (s : List Char)
  | bool (b : Bool)
deriving DecidableEq, Repr

/-- `fragment.replace(/\d/g, "X")`. -/
def maskDigits (l : List Char) : List Char :=
  l.map fun c => if c.isDigit then 'X' else c

/-- `ssnMask` from the source (primary variant): returns `false` when the
input is invalid, otherwise cuts the raw input at
`[len-7, len-5, len-2, len-1]`, masks the digits of fragments 0, 2 and 4
of the five fragments, and rejoins. -/
def ssnMask (today : Date) (ssn : List Char) : JSValue :=
  if ssnIsValid today ssn = false then JSValue.bool false
  else
    let date_index := ssn.length - 7
    let gender_index := ssn.length - 2
    let fragments := divideByIndex ssn [date_index, date_index + 2, gender_index, gender_index + 1]
    JSValue.str (List.flatten (fragments.enum.map fun p =>
      if p.1 = 0 ∨ p.1 = 2 ∨ p.1 = 4 then maskDigits p.2 else p.2))

/-- A raw JavaScript argument to `ssnIsValid`: a primitive string; a
number (e.g. the integer `12341231` of the repository's tests); a
`String` wrapper object, which coerces to its wrapped text and carries
the string methods; or any other object, carried by its abstract
`ToString` coercion (a plain object coerces to "[object Object]", a
one-element array to its element's string, etc.) and carrying no string
methods. -/
inductive RawInput where
  | str (s : List Char)
  | num (n : Int)
  | strObject (s : List Char)
  | obj (coerced : List Char)

/-- String the regex test (`RegExp.prototype.test`) coerces the raw
argument to. -/
def jsToString : RawInput → List Char
  | RawInput.str s => s
  | RawInput.num n => intToChars n
  | RawInput.strObject s => s
  | RawInput.obj s => s

/-- Whether the raw value can answer the `.replace` method call that
`sanitize` performs on it: only primitive strings and `String` wrapper
objects can; on anything else the call throws a TypeError. -/
def hasStringMethods : RawInput → Bool
  | RawInput.str _ => true
  | RawInput.strObject _ => true
  | _ => false

/-- The primary `ssnIsValid` applied to a raw JavaScript argument.  The
regex test only coerces, so a failing match returns false whatever the
argument was; a passing match hands the raw value to `sanitize`, whose
`ssn.replace("-", "")` call proceeds along the string pipeline for
values with string methods and throws a TypeError for every other
value. -/
def ssnIsValidRawE (today : Date) (v : RawInput) : Except Unit Bool :=
  if regexTest (jsToString v) = false then Except.ok false
  else if hasStringMethods v = true then ssnIsValidE today (jsToString v)
  else Except.error ()

/-- JavaScript word character (regex `\w`). -/
def isWordChar (c : Char) : Bool := c.isAlphanum || c == '_'

/-- `removeNonWordCharacters` from the second variant:
`string.replace(/\W/g, '')`. -/
def removeNonWordCharacters (stringToHandle : List Char) : List Char :=
  stringToHandle.filter isWordChar

/-- One loop step of the second variant's `ssnCalculateChecksum`: double
at even indices, subtract 9 from two-digit products; a non-digit character
is NaN. -/
def luhn2Term (i : Nat) (c : Char) : Option Nat :=
  if c.isDigit then
    let n := digitVal c
    let n2 := if i % 2 = 0 then n * 2 else n
    some (if n2 > 9 then n2 - 9 else n2)
  else none

/-- Loop and final steps of the second variant's `ssnCalculateChecksum`:
`checksum % 10`, kept at 0 when it is 0, else `10 - checksum`, rendered
with `String(...)`. -/
def luhn2Result (s : List Char) : List Char :=
  match s.enum.foldl (fun acc p => optAdd acc (luhn2Term p.1 p.2)) (some 0) with
  | none => ['N', 'a', 'N']
  | some total =>
    let c := total % 10
    natDigits (if c = 0 then 0 else 10 - c)

/-- `ssnCalculateChecksum` from the second variant in src/src/index.ts:
strips non-word characters, accepts 9 digits (or 11, cutting the first
two), and throws on any other length. -/
def ssnCalculateChecksum (ssnWithoutChecksum : List Char) : Except Unit (List Char) :=
  let s := removeNonWordCharacters ssnWithoutChecksum
  if s.length = 9 then Except.ok (luhn2Result s)
  else if s.length = 11 then Except.ok (luhn2Result (jsSlice s 2 11))
  else Except.error ()

/-- The birth date the primary validator reconstructs from an input: the
date parsed from the first 8 characters of the sanitized registry,
rejoined as `YYYY-MM-DD`. -/
def reconstructedDate (today : Date) (ssn : List Char) : Option Date :=
  let s := sanitize today ssn
  let registry := jsSlice s 0 (s.length - 1)
  jsDateParse (List.intercalate ['-'] (divideByIndex (jsSlice registry 0 8) [4, 6]))

/-! Basic facts about the embedding. -/

theorem divideByIndex_one (s : List Char) (n : Nat) :
    divideByIndex s [n] = [jsSlice s 0 n, jsSlice s n s.length] := rfl

theorem divideByIndex_four (s : List Char) (a b c d : Nat) :
    divideByIndex s [a, b, c, d] =
      [jsSlice s 0 a, jsSlice s a b, jsSlice s b c, jsSlice s c d, jsSlice s d s.length] := rfl

theorem ssnIsValidE_eq (t : Date) (ssn : List Char) :
    ssnIsValidE t ssn =
      if regexTest ssn = false then Except.ok false
      else
        let s := sanitize t ssn
        let registry := jsSlice s 0 (s.length - 1)
        let checksum := parseIntJS (jsSlice s (s.length - 1) s.length)
        match reconstructedDate t ssn with
        | none => Except.ok false
        | some date =>
          if dateLt t date then Except.ok false
          else Except.ok (luhnCheckEq (luhnControl (registry.drop 2)) checksum) := rfl

theorem ssnIsValidE_isOk (t : Date) (ssn : List Char) :
    ∃ b, ssnIsValidE t ssn = Except.ok b := by
  rw [ssnIsValidE_eq]
  split
  · exact ⟨_, rfl⟩
  · split
    · exact ⟨_, rfl⟩
    · split
      · exact ⟨_, rfl⟩
      · exact ⟨_, rfl⟩

theorem ssnIsValid_eq_of_regex_false (t : Date) (ssn : List Char)
    (h : regexTest ssn = false) : ssnIsValid t ssn = false := by
  simp [ssnIsValid, ssnIsValidE, h]

theorem regex_of_valid {t : Date} {ssn : List Char}
    (hv : ssnIsValid t ssn = true) : regexTest ssn = true := by
  by_contra h
  rw [Bool.not_eq_true] at h
  rw [ssnIsValid_eq_of_regex_false t ssn h] at hv
  exact Bool.false_ne_true hv

theorem regex_length {s : List Char} (h : regexTest s = true) :
    s.length = 11 ∨ s.length = 13 := by
  simp only [regexTest, Bool.or_eq_true, Bool.and_eq_true, decide_eq_true_eq] at h
  rcases h with ⟨⟨h, _⟩, _⟩ | ⟨⟨h, _⟩, _⟩
  · exact Or.inl h
  · exact Or.inr h

theorem digitChar_isDigit {n : Nat} (h : n < 10) : (digitChar n).isDigit = true := by
  have : ∀ m, m < 10 → (digitChar m).isDigit = true := by decide
  exact this n h

theorem natDigitsAux_all_digit :
    ∀ (fuel n : Nat) (acc : List Char), (∀ c ∈ acc, c.isDigit = true) →
      ∀ c ∈ natDigitsAux fuel n acc, c.isDigit = true := by
  intro fuel
  induction fuel with
  | zero => intro n acc hacc c hc; exact hacc c hc
  | succ f ih =>
    intro n acc hacc c hc
    rw [natDigitsAux] at hc
    split at hc
    · rcases List.mem_cons.mp hc with rfl | hc
      · exact digitChar_isDigit (by omega)
      · exact hacc c hc
    · refine ih (n / 10) _ ?_ c hc
      intro d hd
      rcases List.mem_cons.mp hd with rfl | hd
      · exact digitChar_isDigit (Nat.mod_lt _ (by omega))
      · exact hacc d hd

theorem natDigits_all_digit (n : Nat) : ∀ c ∈ natDigits n, c.isDigit = true :=
  natDigitsAux_all_digit (n + 1) n [] (by intro c hc; cases hc)

theorem sepChar_cases {c : Char} (h : sepChar c = true) : c = '-' ∨ c = '+' := by
  simp only [sepChar, Bool.or_eq_true, beq_iff_eq] at h
  exact h

theorem isDigit_not_sep {c : Char} (h : c.isDigit = true) : sepChar c = false := by
  cases hs : sepChar c
  · rfl
  · rcases sepChar_cases hs with rfl | rfl <;> simp [Char.isDigit] at h

theorem sepTail_sep {l : List Char} (h : sepTail l = true) :
    ∃ sep rest, l = sep :: rest ∧ sepChar sep = true := by
  unfold sepTail at h
  split at h
  · rename_i sep a b c d
    refine ⟨sep, [a, b, c, d], rfl, ?_⟩
    simp only [Bool.and_eq_true] at h
    exact h.1.1.1
  · exact absurd h (by simp)

theorem regexTest_sep {s : List Char} (h : regexTest s = true) :
    ∃ sep, sep ∈ s ∧ sepChar sep = true := by
  simp only [regexTest, Bool.or_eq_true, Bool.and_eq_true, decide_eq_true_eq] at h
  rcases h with ⟨⟨_, _⟩, hsep⟩ | ⟨⟨_, _⟩, hsep⟩
  · obtain ⟨sep, rest, heq, hc⟩ := sepTail_sep hsep
    exact ⟨sep, List.mem_of_mem_drop (heq ▸ List.mem_cons_self sep rest), hc⟩
  · obtain ⟨sep, rest, heq, hc⟩ := sepTail_sep hsep
    exact ⟨sep, List.mem_of_mem_drop (heq ▸ List.mem_cons_self sep rest), hc⟩

theorem regexTest_all_digits_false {s : List Char}
    (h : ∀ c ∈ s, c.isDigit = true) : regexTest s = false := by
  cases hr : regexTest s
  · rfl
  · obtain ⟨sep, hmem, hsep⟩ := regexTest_sep hr
    rw [isDigit_not_sep (h sep hmem)] at hsep
    exact absurd hsep (by simp)

/-! Claim C1.  The primary validator compares the trailing digit against
`10 - (control % 10)` with no final `% 10`: when the weighted sum is
divisible by 10 this value is 10, which never equals the check digit 0,
so a genuinely valid identifier with check digit 0 is rejected.  The
second variant's `ssnCalculateChecksum` in the same file implements the
claimed `(10 - (total mod 10)) mod 10` and accepts the same number. -/

/-- C1: evaluation at the failing input `"900211-0600"` (today
2026-10-11).  Its weighted sum is 20, so the correct check digit is 0 and
the trailing digit is 0, yet the primary validator returns false, while
the repository's own `ssnCalculateChecksum` computes "0" for the same
nine digits. -/
theorem c1_checksum_bug :
    luhnControl ['9', '0', '0', '2', '1', '1', '0', '6', '0'] = some 20 ∧
    ssnIsValid ⟨2026, 10, 11⟩ "900211-0600".data = false ∧
    ssnCalculateChecksum "900211-060".data = Except.ok ['0'] := by
  refine ⟨by decide, by decide, by rfl⟩

/-! Claim C2.  The primary `ssnMask` does not signal an error on invalid
input: it returns the boolean `false` (the throwing behaviour exists only
in the second historical variant). -/

/-- C2 counterexample: the empty string is invalid, and `ssnMask` returns
the non-error value `false` instead of signaling an InvalidIdentifier
error — the very behaviour the claim rules out. -/
theorem c2_mask_returns_false :
    ssnIsValid ⟨2026, 10, 11⟩ "".data = false ∧
    ssnMask ⟨2026, 10, 11⟩ "".data = JSValue.bool false := by
  refine ⟨by decide, by decide⟩

/-- C2 amended: for every input on which `isValid` is false, the primary
`ssnMask` returns the boolean `false`; in particular it never returns a
partially masked string. -/
theorem c2_mask_invalid (t : Date) (ssn : List Char)
    (h : ssnIsValid t ssn = false) : ssnMask t ssn = JSValue.bool false := by
  simp [ssnMask, h]

/-- C2 witness. -/
theorem c2_mask_invalid_witness :
    ssnIsValid ⟨2026, 10, 11⟩ "abc".data = false ∧
    ssnMask ⟨2026, 10, 11⟩ "abc".data = JSValue.bool false :=
  ⟨by decide, c2_mask_invalid ⟨2026, 10, 11⟩ "abc".data (by decide)⟩

/-! Claim C7.  The primary format regex requires a `-` or `+` separator,
so no identifier written as bare digits is ever accepted: the separator
is mandatory, not optional. -/

/-- C7 counterexample: the claim's own example inputs, 10 and 12 bare
digits with no separator, are both rejected. -/
theorem c7_bare_digits_rejected :
    ssnIsValid ⟨2026, 10, 11⟩ "9011211234".data = false ∧
    ssnIsValid ⟨2026, 10, 11⟩ "199011211234".data = false := by
  refine ⟨by decide, by decide⟩

/-- C7 amended: every input consisting solely of digits — in particular
every 10- or 12-digit bare form — fails the format regex of the primary
validator and is rejected; the separator is mandatory. -/
theorem c7_no_sep_invalid (t : Date) (s : List Char)
    (h : ∀ c ∈ s, c.isDigit = true) : ssnIsValid t s = false :=
  ssnIsValid_eq_of_regex_false t s (regexTest_all_digits_false h)

/-- C7 witness. -/
theorem c7_no_sep_invalid_witness :
    (∀ c ∈ "9011211234".data, c.isDigit = true) ∧
    ssnIsValid ⟨2026, 10, 11⟩ "9011211234".data = false :=
  ⟨by decide, c7_no_sep_invalid ⟨2026, 10, 11⟩ "9011211234".data (by decide)⟩

/-! Claim C6.  `ssnIsValid` is total on every string and on every
number, but not over all JavaScript values: the regex test coerces its
argument, so a non-string object whose coercion matches the format
regex flows raw into `sanitize`, where the `.replace` call throws a
TypeError, while a `String` wrapper object proceeds exactly like its
underlying string and can even validate as true. -/

theorem regexTest_head_not_digit {c : Char} {rest : List Char}
    (h : c.isDigit = false) : regexTest (c :: rest) = false := by
  cases hr : regexTest (c :: rest)
  · rfl
  · simp only [regexTest, Bool.or_eq_true, Bool.and_eq_true, decide_eq_true_eq] at hr
    rcases hr with ⟨⟨_, hall⟩, _⟩ | ⟨⟨_, hall⟩, _⟩ <;>
      [skip; skip] <;>
      · rw [List.all_eq_true] at hall
        have := hall c (by simp [List.take_cons])
        rw [h] at this
        exact absurd this (by simp)

/-- C6 counterexample: two non-string object inputs refuting totality.
An object coercing to `"430416+1476"` (e.g. the one-element array of
that string) passes the regex and then throws in `sanitize` — the
embedding's error value — instead of returning false; and the `String`
wrapper object of the same text returns true, not false. -/
theorem c6_object_inputs_break_totality :
    ssnIsValidRawE ⟨2026, 10, 11⟩ (RawInput.obj "430416+1476".data) = Except.error () ∧
    ssnIsValidRawE ⟨2026, 10, 11⟩ (RawInput.strObject "430416+1476".data) = Except.ok true := by
  refine ⟨by rfl, by rfl⟩

/-- C6 amended: totality holds exactly up to the coercion boundary.
(1) On every string the validator never throws: the instrumented
embedding always returns an ordinary boolean.  (2) The empty string is
rejected.  (3) Every number returns false (its decimal string never
matches the regex).  (4) Every raw value whose string coercion fails
the regex — in particular a plain object coercing to
"[object Object]" — returns false without further processing.  (5) Any
non-`String` object whose coercion does match the regex throws in
`sanitize`.  (6) A `String` wrapper object behaves exactly like its
underlying string. -/
theorem c6_totality_boundary :
    (∀ (t : Date) (s : List Char), ssnIsValidE t s = Except.ok (ssnIsValid t s)) ∧
    (∀ t : Date, ssnIsValid t [] = false) ∧
    (∀ (t : Date) (n : Int), ssnIsValidRawE t (RawInput.num n) = Except.ok false) ∧
    (∀ (t : Date) (v : RawInput), regexTest (jsToString v) = false →
      ssnIsValidRawE t v = Except.ok false) ∧
    (∀ (t : Date) (s : List Char), regexTest s = true →
      ssnIsValidRawE t (RawInput.obj s) = Except.error ()) ∧
    (∀ (t : Date) (s : List Char),
      ssnIsValidRawE t (RawInput.strObject s) = Except.ok (ssnIsValid t s)) := by
  have htotal : ∀ (t : Date) (s : List Char), ssnIsValidE t s = Except.ok (ssnIsValid t s) := by
    intro t s
    obtain ⟨b, hb⟩ := ssnIsValidE_isOk t s
    rw [hb, ssnIsValid, hb]
  refine ⟨htotal, ?_, ?_, ?_, ?_, ?_⟩
  · intro t
    rfl
  · intro t n
    have hn : regexTest (intToChars n) = false := by
      unfold intToChars
      split
      · exact regexTest_head_not_digit (by decide)
      · exact regexTest_all_digits_false (natDigits_all_digit _)
    unfold ssnIsValidRawE
    rw [if_pos (show regexTest (jsToString (RawInput.num n)) = false from hn)]
  · intro t v h
    unfold ssnIsValidRawE
    rw [if_pos h]
  · intro t s h
    unfold ssnIsValidRawE
    rw [if_neg (by simp [jsToString, h])]
    rfl
  · intro t s
    cases hr : regexTest s
    · unfold ssnIsValidRawE
      rw [if_pos (show regexTest (jsToString (RawInput.strObject s)) = false from hr),
        ssnIsValid_eq_of_regex_false t s hr]
    · unfold ssnIsValidRawE
      rw [if_neg (by simp [jsToString, hr])]
      exact htotal t s

/-- C6 witness: the plain object of the repository README's
`ssnIsValid({})` example coerces to "[object Object]", which fails the
regex, so the validator returns false without touching the object. -/
theorem c6_totality_boundary_witness :
    regexTest (jsToString (RawInput.obj "[object Object]".data)) = false ∧
    ssnIsValidRawE ⟨2026, 10, 11⟩ (RawInput.obj "[object Object]".data) = Except.ok false :=
  ⟨by decide,
    c6_totality_boundary.2.2.2.1 ⟨2026, 10, 11⟩
      (RawInput.obj "[object Object]".data) (by decide)⟩

/-! Claim C3.  For a `+`-separated short form the source keeps
`age_threshold = 125` (100 is only chosen when the string contains a
dash), so the prepended century digits come from `currentYear - 125`,
not from `currentYear - 100` as claimed. -/

theorem removeFirst_of_not_mem {c : Char} : ∀ {l : List Char}, c ∉ l → removeFirst c l = l := by
  intro l
  induction l with
  | nil => intro _; rfl
  | cons x xs ih =>
    intro h
    rw [removeFirst, if_neg, ih (fun hm => h (List.mem_cons_of_mem x hm))]
    intro hxc
    exact h (hxc ▸ List.mem_cons_self x xs)

theorem removeFirst_append_cons {c : Char} {l1 l2 : List Char} (h : c ∉ l1) :
    removeFirst c (l1 ++ c :: l2) = l1 ++ l2 := by
  induction l1 with
  | nil => simp [removeFirst]
  | cons x xs ih =>
    rw [List.cons_append, removeFirst, if_neg, List.cons_append,
      ih (fun hm => h (List.mem_cons_of_mem x hm))]
    intro hxc
    exact h (hxc ▸ List.mem_cons_self x xs)

theorem digit_ne_dash {c : Char} (h : c.isDigit = true) : ¬ c = '-' := by
  intro he
  rw [he] at h
  exact absurd h (by decide)

theorem digit_ne_plus {c : Char} (h : c.isDigit = true) : ¬ c = '+' := by
  intro he
  rw [he] at h
  exact absurd h (by decide)

/-- C3 counterexample: with the clock frozen to 2024-01-01 and the
`+`-separated short form `"430416+1476"`, the prepended century digits
are "18" (from 2024 - 125 = 1899), not the first two digits "19" of
2024 - 100 = 1924 demanded by the claim. -/
theorem c3_century_from_125 :
    sanitize ⟨2024, 1, 1⟩ "430416+1476".data ≠
      (natDigits (2024 - 100)).take 2 ++ "4304161476".data := by
  decide

/-- C3 amended: for every 10-digit short-form input whose separator is
`+`, the two century characters prepended during normalization are the
first two digits of `currentYear - 125` (the dash-free age threshold of
`sanitize`), not of `currentYear - 100`. -/
theorem c3_plus_century (t : Date) (d6 d4 : List Char)
    (h6 : d6.length = 6) (h4 : d4.length = 4)
    (hd : ∀ c ∈ d6 ++ d4, c.isDigit = true) :
    sanitize t (d6 ++ '+' :: d4) =
      (natDigits (t.year - 125)).take 2 ++ (d6 ++ d4) := by
  have hdash : ∀ c ∈ d6 ++ '+' :: d4, ¬ c = '-' := by
    intro c hc
    rcases List.mem_append.mp hc with hc | hc
    · exact digit_ne_dash (hd c (List.mem_append.mpr (Or.inl hc)))
    · rcases List.mem_cons.mp hc with rfl | hc
      · decide
      · exact digit_ne_dash (hd c (List.mem_append.mpr (Or.inr hc)))
  have hcontains : (d6 ++ '+' :: d4).contains '-' = false := by
    cases hcc : (d6 ++ '+' :: d4).contains '-'
    · rfl
    · exact absurd rfl (hdash '-' (by simpa using hcc))
  have hrm1 : removeFirst '-' (d6 ++ '+' :: d4) = d6 ++ '+' :: d4 :=
    removeFirst_of_not_mem (fun hm => hdash '-' hm rfl)
  have hrm2 : removeFirst '+' (d6 ++ '+' :: d4) = d6 ++ d4 :=
    removeFirst_append_cons (fun hm =>
      digit_ne_plus (hd '+' (List.mem_append.mpr (Or.inl hm))) rfl)
  have hlen : (d6 ++ d4).length = 10 := by simp [h6, h4]
  simp only [sanitize, hcontains, hrm1, hrm2, hlen, if_pos, Bool.false_eq_true, if_false]

/-- C3 witness. -/
theorem c3_plus_century_witness :
    ("430416".data.length = 6 ∧ "1476".data.length = 4 ∧
      (∀ c ∈ "430416".data ++ "1476".data, c.isDigit = true)) ∧
    sanitize ⟨2024, 1, 1⟩ ("430416".data ++ '+' :: "1476".data) =
      (natDigits (2024 - 125)).take 2 ++ ("430416".data ++ "1476".data) :=
  ⟨⟨by decide, by decide, by decide⟩,
    c3_plus_century ⟨2024, 1, 1⟩ "430416".data "1476".data (by decide) (by decide) (by decide)⟩

/-! Claim C9.  The validator rejects any input whose reconstructed birth
date fails to parse as a real calendar date, and any input whose
reconstructed date lies strictly after the current date, in both cases
before the checksum is even consulted. -/

/-- C9: if the date the validator reconstructs does not exist (`none`:
unparseable or not a real calendar date) or lies strictly after today,
`ssnIsValid` returns false, regardless of the checksum digits. -/
theorem c9_date_rejection (t : Date) (ssn : List Char)
    (h : reconstructedDate t ssn = none ∨
      ∃ d, reconstructedDate t ssn = some d ∧ dateLt t d = true) :
    ssnIsValid t ssn = false := by
  rw [ssnIsValid, ssnIsValidE_eq]
  cases hr : regexTest ssn
  · rfl
  · simp only [hr]
    rcases h with h | ⟨d, h, hlt⟩
    · rw [h]
      simp
    · rw [h]
      simp [hlt]

/-- C9 witness: the repository test fixture `"20470705-0573"` reconstructs
to 2047-07-05, in the future of 2026-10-11, and is rejected. -/
theorem c9_date_rejection_witness :
    (reconstructedDate ⟨2026, 10, 11⟩ "20470705-0573".data = some ⟨2047, 7, 5⟩ ∧
      dateLt ⟨2026, 10, 11⟩ ⟨2047, 7, 5⟩ = true) ∧
    ssnIsValid ⟨2026, 10, 11⟩ "20470705-0573".data = false :=
  ⟨⟨by decide, by decide⟩,
    c9_date_rejection ⟨2026, 10, 11⟩ "20470705-0573".data
      (Or.inr ⟨⟨2047, 7, 5⟩, by decide, by decide⟩)⟩

/-! Claim C10.  `divideByIndex` is a partition: for sorted in-range cut
indices, joining the fragments gives back the original string. -/

theorem jsSlice_self (s : List Char) (a : Nat) : jsSlice s a a = [] := by
  unfold jsSlice
  rw [List.drop_take]
  simp

theorem jsSlice_append (s : List Char) {a b c : Nat} (h1 : a ≤ b) (h2 : b ≤ c) :
    jsSlice s a b ++ jsSlice s b c = jsSlice s a c := by
  unfold jsSlice
  rw [List.drop_take, List.drop_take, List.drop_take]
  rw [show s.drop b = (s.drop a).drop (b - a) by rw [List.drop_drop]; congr 1; omega]
  rw [show c - a = (b - a) + (c - b) by omega, List.take_add]

theorem le_getLastD_of_chain :
    ∀ (l : List Nat) (a : Nat), List.Chain' (· ≤ ·) (a :: l) → a ≤ l.getLastD a := by
  intro l
  induction l with
  | nil => intro a _; exact Nat.le_refl a
  | cons b l ih =>
    intro a h
    rw [List.chain'_cons] at h
    rw [List.getLastD_cons]
    exact Nat.le_trans h.1 (ih b h.2)

theorem zip_slices_flatten (s : List Char) :
    ∀ (l : List Nat) (a : Nat), List.Chain' (· ≤ ·) (a :: l) →
      ((((a :: l).zip l).map fun p => jsSlice s p.1 p.2).flatten) = jsSlice s a (l.getLastD a) := by
  intro l
  induction l with
  | nil => intro a _; simp [jsSlice_self]
  | cons b l ih =>
    intro a h
    rw [List.chain'_cons] at h
    have hb := ih b h.2
    simp only [List.zip_cons_cons, List.map_cons, List.flatten_cons, List.getLastD_cons]
    rw [hb, jsSlice_append s h.1 (le_getLastD_of_chain l b h.2)]

/-- C10: for every string and every nondecreasing list of cut indices,
each within the string's bounds, joining the fragments of `divideByIndex`
with the empty string gives back exactly the original string. -/
theorem c10_divide_partition (s : List Char) (cuts : List Nat)
    (hsorted : List.Chain' (· ≤ ·) cuts) (hbound : ∀ c ∈ cuts, c ≤ s.length) :
    (divideByIndex s cuts).flatten = s := by
  have hchain : List.Chain' (· ≤ ·) (0 :: cuts ++ [s.length]) := by
    rw [show (0 :: cuts ++ [s.length]) = (0 :: cuts) ++ [s.length] by rfl, List.chain'_append]
    refine ⟨List.chain'_cons'.mpr ⟨fun y _ => Nat.zero_le y, hsorted⟩,
      List.chain'_singleton _, ?_⟩
    intro x hx y hy
    simp only [List.head?_cons, Option.mem_def, Option.some.injEq] at hy
    subst hy
    obtain ⟨hne, heq⟩ := List.mem_getLast?_eq_getLast hx
    rcases List.mem_cons.mp (heq ▸ List.getLast_mem hne : x ∈ 0 :: cuts) with rfl | hxc
    · exact Nat.zero_le _
    · exact hbound x hxc
  have hz := zip_slices_flatten s (cuts ++ [s.length]) 0 hchain
  simp only [divideByIndex, List.cons_append, List.tail_cons]
  rw [hz, List.getLastD_concat, jsSlice]
  simp

/-- C10 witness: the masker's cut indices on an 11-character input. -/
theorem c10_divide_partition_witness :
    (List.Chain' (· ≤ ·) [4, 6, 9, 10] ∧ ∀ c ∈ [4, 6, 9, 10], c ≤ "430416+1476".data.length) ∧
    (divideByIndex "430416+1476".data [4, 6, 9, 10]).flatten = "430416+1476".data :=
  ⟨⟨List.Chain.cons (by omega) (List.Chain.cons (by omega)
      (List.Chain.cons (by omega) List.Chain.nil)), by decide⟩,
    c10_divide_partition "430416+1476".data [4, 6, 9, 10]
      (List.Chain.cons (by omega) (List.Chain.cons (by omega)
        (List.Chain.cons (by omega) List.Chain.nil))) (by decide)⟩

/-! Claim C4.  The fixture `"900211-1234"` is NOT valid: the weighted sum
of `900211123` is 24, so the validator computes check digit 6, which
differs from the trailing 4 (the repository's own test table also expects
false for this input).  Consequently `ssnMask` returns the boolean
`false`, not `"XXXX11XX3X"`. -/

/-- C4 counterexample: with today frozen to 2026-10-11 (1990-02-11 is in
the past), `isValid("900211-1234")` is not true — so a fortiori the
claimed mask output is never produced. -/
theorem c4_fixture_invalid :
    ¬ (ssnIsValid ⟨2026, 10, 11⟩ "900211-1234".data = true ∧
       ssnMask ⟨2026, 10, 11⟩ "900211-1234".data = JSValue.str "XXXX11XX3X".data) := by
  decide

/-- C4 amended: for every current date with year in 2000..2099 (so that
1990-02-11 lies in the past and the inferred century is 19),
`isValid("900211-1234")` returns false — its computed check digit is 6,
not the trailing 4 — and `mask("900211-1234")` returns the boolean
`false`. -/
theorem c4_fixture_result (t : Date) (h1 : 2000 ≤ t.year) (h2 : t.year ≤ 2099) :
    ssnIsValid t "900211-1234".data = false ∧
    ssnMask t "900211-1234".data = JSValue.bool false := by
  have h19 : ∀ k, k < 100 → (natDigits (1900 + k)).take 2 = ['1', '9'] := by decide
  have hy : t.year - 100 = 1900 + (t.year - 2000) := by omega
  have hsan : sanitize t "900211-1234".data = "199002111234".data := by
    show (natDigits (t.year - 100)).take 2 ++ "9002111234".data = _
    rw [hy, h19 _ (by omega)]
    rfl
  have hrd : reconstructedDate t "900211-1234".data = some ⟨1990, 2, 11⟩ := by
    simp only [reconstructedDate]
    rw [hsan]
    rfl
  have hdl : dateLt t ⟨1990, 2, 11⟩ = false := by
    simp only [dateLt, Bool.or_eq_false_iff, Bool.and_eq_false_iff,
      decide_eq_false_iff_not, decide_eq_true_eq]
    omega
  have hE : ssnIsValidE t "900211-1234".data = Except.ok false := by
    rw [ssnIsValidE_eq, if_neg (by decide)]
    simp only [hrd, hdl, hsan]
    rfl
  have hval : ssnIsValid t "900211-1234".data = false := by
    rw [ssnIsValid, hE]
  exact ⟨hval, by simp [ssnMask, hval]⟩

/-- C4 witness. -/
theorem c4_fixture_result_witness :
    (2000 ≤ 2026 ∧ 2026 ≤ 2099) ∧
    (ssnIsValid ⟨2026, 10, 11⟩ "900211-1234".data = false ∧
     ssnMask ⟨2026, 10, 11⟩ "900211-1234".data = JSValue.bool false) :=
  ⟨⟨by omega, by omega⟩,
    c4_fixture_result ⟨2026, 10, 11⟩ (by decide) (by decide)⟩

/-! Claims C5 and C8.  For a valid input the masker returns a string of
identical length in which the two day-of-month characters (positions
`len-7`, `len-6`), the gender digit (position `len-2`) and every
non-digit character (in particular the separator, at its original
position) are preserved, and every other digit is replaced 1:1 by `X`;
the masked string starts with `X` and therefore never passes the format
regex, so it is itself invalid. -/

theorem regex_head_digit {c : Char} {rest : List Char}
    (h : regexTest (c :: rest) = true) : c.isDigit = true := by
  by_contra hc
  rw [Bool.not_eq_true] at hc
  rw [regexTest_head_not_digit hc] at h
  exact absurd h (by simp)

theorem len11_destruct (x : List Char) (h : x.length = 11) :
    ∃ c0 c1 c2 c3 c4 c5 c6 c7 c8 c9 c10,
      x = [c0, c1, c2, c3, c4, c5, c6, c7, c8, c9, c10] := by
  rcases x with _ | ⟨c0, x⟩; · simp at h
  rcases x with _ | ⟨c1, x⟩; · simp at h
  rcases x with _ | ⟨c2, x⟩; · simp at h
  rcases x with _ | ⟨c3, x⟩; · simp at h
  rcases x with _ | ⟨c4, x⟩; · simp at h
  rcases x with _ | ⟨c5, x⟩; · simp at h
  rcases x with _ | ⟨c6, x⟩; · simp at h
  rcases x with _ | ⟨c7, x⟩; · simp at h
  rcases x with _ | ⟨c8, x⟩; · simp at h
  rcases x with _ | ⟨c9, x⟩; · simp at h
  rcases x with _ | ⟨c10, x⟩; · simp at h
  rcases x with _ | ⟨c11, x⟩
  · exact ⟨c0, c1, c2, c3, c4, c5, c6, c7, c8, c9, c10, rfl⟩
  · simp at h

theorem len13_destruct (x : List Char) (h : x.length = 13) :
    ∃ c0 c1 c2 c3 c4 c5 c6 c7 c8 c9 c10 c11 c12,
      x = [c0, c1, c2, c3, c4, c5, c6, c7, c8, c9, c10, c11, c12] := by
  rcases x with _ | ⟨c0, x⟩; · simp at h
  rcases x with _ | ⟨c1, x⟩; · simp at h
  rcases x with _ | ⟨c2, x⟩; · simp at h
  rcases x with _ | ⟨c3, x⟩; · simp at h
  rcases x with _ | ⟨c4, x⟩; · simp at h
  rcases x with _ | ⟨c5, x⟩; · simp at h
  rcases x with _ | ⟨c6, x⟩; · simp at h
  rcases x with _ | ⟨c7, x⟩; · simp at h
  rcases x with _ | ⟨c8, x⟩; · simp at h
  rcases x with _ | ⟨c9, x⟩; · simp at h
  rcases x with _ | ⟨c10, x⟩; · simp at h
  rcases x with _ | ⟨c11, x⟩; · simp at h
  rcases x with _ | ⟨c12, x⟩; · simp at h
  rcases x with _ | ⟨c13, x⟩
  · exact ⟨c0, c1, c2, c3, c4, c5, c6, c7, c8, c9, c10, c11, c12, rfl⟩
  · simp at h

theorem mask_valid_cases (t : Date) (x : List Char) (hv : ssnIsValid t x = true) :
    ∃ m, ssnMask t x = JSValue.str m ∧ m.length = x.length ∧
      (∀ i, i < x.length → m.getD i ' ' =
        (if (x.getD i ' ').isDigit = true ∧
            ¬(i = x.length - 7 ∨ i = x.length - 6 ∨ i = x.length - 2)
          then 'X' else x.getD i ' ')) ∧
      ssnIsValid t m = false := by
  have hreg := regex_of_valid hv
  rcases regex_length hreg with h11 | h13
  · obtain ⟨c0, c1, c2, c3, c4, c5, c6, c7, c8, c9, c10, rfl⟩ := len11_destruct x h11
    have hc0 : c0.isDigit = true := regex_head_digit hreg
    refine ⟨[if c0.isDigit = true then 'X' else c0, if c1.isDigit = true then 'X' else c1,
      if c2.isDigit = true then 'X' else c2, if c3.isDigit = true then 'X' else c3, c4, c5,
      if c6.isDigit = true then 'X' else c6, if c7.isDigit = true then 'X' else c7,
      if c8.isDigit = true then 'X' else c8, c9, if c10.isDigit = true then 'X' else c10],
      ?_, rfl, ?_, ?_⟩
    · unfold ssnMask
      rw [if_neg (by simp [hv])]
      rfl
    · intro i hi
      have hi' : i < 11 := by simpa using hi
      interval_cases i <;> simp [List.getD]
    · apply ssnIsValid_eq_of_regex_false
      rw [if_pos hc0]
      exact regexTest_head_not_digit (by decide)
  · obtain ⟨c0, c1, c2, c3, c4, c5, c6, c7, c8, c9, c10, c11, c12, rfl⟩ := len13_destruct x h13
    have hc0 : c0.isDigit = true := regex_head_digit hreg
    refine ⟨[if c0.isDigit = true then 'X' else c0, if c1.isDigit = true then 'X' else c1,
      if c2.isDigit = true then 'X' else c2, if c3.isDigit = true then 'X' else c3,
      if c4.isDigit = true then 'X' else c4, if c5.isDigit = true then 'X' else c5, c6, c7,
      if c8.isDigit = true then 'X' else c8, if c9.isDigit = true then 'X' else c9,
      if c10.isDigit = true then 'X' else c10, c11, if c12.isDigit = true then 'X' else c12],
      ?_, rfl, ?_, ?_⟩
    · unfold ssnMask
      rw [if_neg (by simp [hv])]
      rfl
    · intro i hi
      have hi' : i < 13 := by simpa using hi
      interval_cases i <;> simp [List.getD]
    · apply ssnIsValid_eq_of_regex_false
      rw [if_pos hc0]
      exact regexTest_head_not_digit (by decide)

/-- C5: for every valid input, `mask` returns a string of exactly the
same length in which each position either keeps the original character —
the two day-of-month digits (positions `len-7`, `len-6`), the
gender-indicator serial digit (position `len-2`), and every non-digit
character such as the separator at its original position — or carries the
placeholder `X` in place of a digit, a 1:1 substitution. -/
theorem c5_mask_shape (t : Date) (x : List Char) (hv : ssnIsValid t x = true) :
    ∃ m, ssnMask t x = JSValue.str m ∧ m.length = x.length ∧
      (∀ i, i < x.length → m.getD i ' ' =
        (if (x.getD i ' ').isDigit = true ∧
            ¬(i = x.length - 7 ∨ i = x.length - 6 ∨ i = x.length - 2)
          then 'X' else x.getD i ' ')) := by
  obtain ⟨m, h1, h2, h3, _⟩ := mask_valid_cases t x hv
  exact ⟨m, h1, h2, h3⟩

/-- C5 witness. -/
theorem c5_mask_shape_witness :
    ssnIsValid ⟨2026, 10, 11⟩ "19430416+1476".data = true ∧
    (∃ m, ssnMask ⟨2026, 10, 11⟩ "19430416+1476".data = JSValue.str m ∧
      m.length = "19430416+1476".data.length ∧
      (∀ i, i < "19430416+1476".data.length → m.getD i ' ' =
        (if ("19430416+1476".data.getD i ' ').isDigit = true ∧
            ¬(i = "19430416+1476".data.length - 7 ∨
              i = "19430416+1476".data.length - 6 ∨
              i = "19430416+1476".data.length - 2)
          then 'X' else "19430416+1476".data.getD i ' '))) :=
  ⟨by decide, c5_mask_shape ⟨2026, 10, 11⟩ "19430416+1476".data (by decide)⟩

/-- C8: the masked rendering of a valid identifier is itself never a
valid identifier: `mask` yields a string (starting with `X` in place of a
digit) on which `isValid` returns false. -/
theorem c8_mask_not_valid (t : Date) (x : List Char) (hv : ssnIsValid t x = true) :
    ∃ m, ssnMask t x = JSValue.str m ∧ ssnIsValid t m = false := by
  obtain ⟨m, h1, _, _, h4⟩ := mask_valid_cases t x hv
  exact ⟨m, h1, h4⟩

/-- C8 witness. -/
theorem c8_mask_not_valid_witness :
    ssnIsValid ⟨2026, 10, 11⟩ "430416+1476".data = true ∧
    (∃ m, ssnMask ⟨2026, 10, 11⟩ "430416+1476".data = JSValue.str m ∧
      ssnIsValid ⟨2026, 10, 11⟩ m = false) :=
  ⟨by decide, c8_mask_not_valid ⟨2026, 10, 11⟩ "430416+1476".data (by decide)⟩
